import Mathlib

/-!
Verification of the Docsy backend gateway (`src/backend/main.go`) against its
natural-language specification.  The relevant Go code is shallowly embedded:
the Hub control loop (`Hub.run`), the WebSocket query pipeline
(`Client.handleQuery` / `Client.sendError`), the upload-time chunking
algorithm (`splitTextIntoChunks`) and user creation (`createOrGetUser`)
become executable Lean functions over explicit state.  External effects
(database rows, the Gemini HTTP call, uuid / clock values) are inputs.
-/

set_option maxRecDepth 20000

namespace Docsy

/-- Character-level text, standing in for a Go string wherever the content
matters (Go slices bytes; the document text is treated per character). -/
abbrev Str := List Char

/-! ## Hub (Registry) — `Hub.run`, main.go lines 318–333

A `*Client` pointer is identified by a `ClientId`.  The hub state carries the
key set of the Go map `hub.clients` together with the close-state of each
client's `send` channel, because `close(client.send)` on an already-closed
channel is a Go runtime panic, modelled as the `Except` error. -/

abbrev ClientId := Nat

/-- One control message consumed by `Hub.run` from the `register` or
`unregister` channel. -/
inductive HubReq where
  | register (c : ClientId)
  | unregister (c : ClientId)
deriving DecidableEq

/-- The client a request concerns. -/
def HubReq.target : HubReq → ClientId
  | .register c => c
  | .unregister c => c

/-- Hub state: the membership map's key set plus which `send` channels have
been closed. -/
structure HubState where
  clients : Finset ClientId
  closed : Finset ClientId
deriving DecidableEq

/-- The hub starts with no clients and no closed channels. -/
def initHub : HubState := ⟨∅, ∅⟩

/-- Go runtime message for closing an already-closed channel. -/
def closePanic : String := "close of closed channel"

/-- One iteration of the `select` in `Hub.run` (main.go 320–331): a
registration inserts into the map; an unregistration of a present client
deletes its entry and closes its `send` channel (panicking if that channel
is already closed), and is a no-op on an absent client. -/
def hubStep (st : HubState) : HubReq → Except String HubState
  | .register c => .ok { st with clients := insert c st.clients }
  | .unregister c =>
      if c ∈ st.clients then
        if c ∈ st.closed then .error closePanic
        else .ok ⟨st.clients.erase c, insert c st.closed⟩
      else .ok st

/-- `Hub.run` consuming a finite sequence of control messages. -/
def hubRun (reqs : List HubReq) (st : HubState) : Except String HubState :=
  match reqs with
  | [] => .ok st
  | r :: rest =>
      match hubStep st r with
      | .ok st' => hubRun rest st'
      | .error e => .error e

/-- Membership set left by a full run from the empty hub; `none` if the loop
panicked before consuming every request. -/
def finalClients (reqs : List HubReq) : Option (Finset ClientId) :=
  match hubRun reqs initHub with
  | .ok st => some st.clients
  | .error _ => none

/-- The last request in `reqs` concerning client `c`, if any. -/
def lastReq (c : ClientId) : List HubReq → Option HubReq
  | [] => none
  | r :: rest =>
      match lastReq c rest with
      | some r2 => some r2
      | none => if r.target = c then some r else none

/-- All clients mentioned by some request. -/
def mentioned (reqs : List HubReq) : Finset ClientId :=
  reqs.foldr (fun r s => insert r.target s) ∅

/-- The specification's membership set: clients whose last request is a
registration, i.e. registered and not subsequently unregistered. -/
def specClients (reqs : List HubReq) : Finset ClientId :=
  (mentioned reqs).filter (fun c => lastReq c reqs = some (.register c))

/-- Naive set semantics of one membership request: insert on register, erase
on unregister. -/
def applyReq (s : Finset ClientId) : HubReq → Finset ClientId
  | .register c => insert c s
  | .unregister c => s.erase c

/-- Naive set semantics of a request sequence. -/
def applyAll (reqs : List HubReq) (s : Finset ClientId) : Finset ClientId :=
  reqs.foldl applyReq s

/-- `true` when no client is registered again after an unregister request for
it; this holds of the program, where each client pointer is registered exactly
once (main.go line 383). -/
def noReregister : List HubReq → Bool
  | [] => true
  | .register _ :: rest => noReregister rest
  | .unregister c :: rest =>
      !(decide ((HubReq.register c) ∈ rest)) && noReregister rest

/-- A request sequence on which `Hub.run` panics: the second unregistration of
client 0 finds it present (it was re-registered) and closes its already-closed
channel, so the final `register 1` is never consumed. -/
def demoBadSeq : List HubReq :=
  [.register 0, .unregister 0, .register 0, .unregister 0, .register 1]

/-- A benign request sequence with duplicate and absent unregistrations. -/
def demoOkSeq : List HubReq :=
  [.register 0, .register 1, .unregister 0, .unregister 0, .unregister 2,
   .register 3]

/-- A hub state used to exercise the unregister step. -/
def demoHubState : HubState := ⟨{1, 2}, {3}⟩

/-! ## Query pipeline — `Client.handleQuery` / `Client.sendError`,
main.go lines 458–546

The outbound queue is the buffered channel `make(chan WSResponse, 256)`
(line 377); `GatewayState` holds its buffered contents and close-state,
together with the membership set `hub.clients` as seen by the pipeline.
Database reads, the Gemini outcome, uuid and clock values are environment
inputs.  The run records which membership mutations were routed through the
hub channels and which were performed inline. -/

/-- Capacity of a client's `send` channel (main.go line 377). -/
def sendCapacity : Nat := 256

/-- Character cap applied to the concatenated document content
(main.go line 483). -/
def contentLimit : Nat := 24000

/-- The JSON `type` field of an outbound frame. -/
inductive FrameKind where
  | response
  | error
deriving DecidableEq

/-- One outbound frame (`WSResponse` in main.go). -/
structure WSResponse where
  kind : FrameKind
  content : Str
  id : String
  timestamp : Nat
deriving DecidableEq

/-- One row inserted into `chat_messages` (main.go lines 507–510). -/
structure ChatRow where
  id : String
  documentID : String
  userID : String
  messageType : String
  messageContent : Str
  timestamp : Nat
deriving DecidableEq

/-- Configuration of one Gemini HTTP request as built by `callGeminiAPI`
(main.go lines 952–978). -/
structure GeminiCall where
  prompt : Str
  maxOutputTokens : Nat
  clientTimeout : Option Nat
deriving DecidableEq

/-- The request `callGeminiAPI` issues for a prompt: `maxOutputTokens` 2048
(line 965), and no client timeout — line 978 calls `http.Post`, which uses
`http.DefaultClient`, whose `Timeout` field is the zero value meaning
"no timeout". -/
def callGeminiRequest (prompt : Str) : GeminiCall := ⟨prompt, 2048, none⟩

/-- Gateway state as seen by one query task: the membership set and the
originating client's outbound queue. -/
structure GatewayState where
  clients : Finset ClientId
  queue : List WSResponse
  queueClosed : Bool
deriving DecidableEq

/-- Environment of one `handleQuery` run: outcome of the `document_chunks`
query, outcome of the Gemini call should it be made, whether the
`chat_messages` insert succeeds, and the uuid / clock values drawn. -/
structure HQEnv where
  chunksResult : Except Unit (List Str)
  geminiResult : Except Str Str
  persistOk : Bool
  responseID : String
  errorID : String
  now : Nat

/-- Observable outcome of one `handleQuery` run. -/
structure HQRun where
  state : GatewayState
  geminiCall : Option GeminiCall
  inserts : List ChatRow
  hubRequests : List HubReq
  inlineDeletes : List ClientId
  persistFailureLogged : Bool
deriving DecidableEq

/-- The `select { case c.send <- response: default: close(c.send);
delete(hub.clients, c) }` pattern shared by `handleQuery` (lines 523–528) and
`sendError` (lines 540–545).  A send on a buffered channel proceeds iff the
buffer is not full; the default branch closes the queue and deletes the
client from `hub.clients` inline (the returned list records that deletion).
Sending on an already-closed channel is a Go panic. -/
def trySend (selfId : ClientId) (st : GatewayState) (f : WSResponse) :
    Except String (GatewayState × List ClientId) :=
  if st.queueClosed then .error "send on closed channel"
  else if st.queue.length < sendCapacity then
    .ok ({ st with queue := st.queue ++ [f] }, [])
  else
    .ok (⟨st.clients.erase selfId, st.queue, true⟩, [selfId])

/-- `Client.sendError` (main.go lines 532–546): wrap the message in an
`error`-typed frame and run it through `trySend`. -/
def sendErrorRun (env : HQEnv) (selfId : ClientId) (st : GatewayState)
    (gc : Option GeminiCall) (msg : Str) : Except String HQRun :=
  match trySend selfId st ⟨.error, msg, env.errorID, env.now⟩ with
  | .ok p => .ok ⟨p.1, gc, [], [], p.2, false⟩
  | .error e => .error e

/-- Opening of the prompt format string (main.go lines 488–495). -/
def promptIntro : Str :=
  ("Based on the following document content, please answer the user's " ++
   "question accurately and concisely.\n\nDocument Content:\n").toList

/-- Middle of the prompt format string, between content and question. -/
def promptMid : Str := "\n\nUser Question: ".toList

/-- Tail of the prompt format string. -/
def promptTail : Str :=
  ("\n\nPlease provide a helpful and accurate answer based on the " ++
   "document content above.").toList

/-- The `fmt.Sprintf` composing the prompt from the (possibly truncated)
content and the verbatim question text. -/
def promptFor (content question : Str) : Str :=
  promptIntro ++ content ++ promptMid ++ question ++ promptTail

/-- Concatenation of the fetched chunk rows: each scanned chunk is appended
as `chunk + "\n\n"` (main.go line 473). -/
def docContext (chunks : List Str) : Str :=
  (chunks.map (fun c => c ++ "\n\n".toList)).flatten

/-- The content cap (main.go lines 483–485): content longer than 24000
characters is cut to its first 24000 characters, otherwise left unchanged. -/
def limitContent (s : Str) : Str :=
  if s.length > contentLimit then s.take contentLimit else s

/-- `Client.handleQuery` (main.go lines 458–529): fetch and concatenate the
document chunks, reject empty content, truncate, compose the prompt, call
Gemini, insert the bot row (failure only logged), and enqueue the response
frame under the `select`/`default` backpressure policy. -/
def handleQuery (env : HQEnv) (selfId : ClientId) (documentID userID : String)
    (question : Str) (st : GatewayState) : Except String HQRun :=
  match env.chunksResult with
  | .error _ => sendErrorRun env selfId st none
      "Failed to fetch document content".toList
  | .ok chunks =>
      let content := docContext chunks
      if content = [] then
        sendErrorRun env selfId st none
          "No content found for this document".toList
      else
        let content := limitContent content
        let prompt := promptFor content question
        let call := callGeminiRequest prompt
        match env.geminiResult with
        | .error e => sendErrorRun env selfId st (some call)
            ("Failed to get response from AI: ".toList ++ e)
        | .ok answer =>
            let row : ChatRow :=
              ⟨env.responseID, documentID, userID, "bot", answer, env.now⟩
            let response : WSResponse :=
              ⟨.response, answer, env.responseID, env.now⟩
            match trySend selfId st response with
            | .ok p => .ok ⟨p.1, some call, [row], [], p.2, !env.persistOk⟩
            | .error e => .error e

/-- Projection out of a run result; `none` if the run hit a Go panic. -/
def runPart {α : Type} (f : HQRun → α) : Except String HQRun → Option α
  | .ok r => some (f r)
  | .error _ => none

/-- Membership set after the run. -/
def runClients : Except String HQRun → Option (Finset ClientId) :=
  runPart (fun r => r.state.clients)

/-- Outbound queue contents after the run. -/
def runQueue : Except String HQRun → Option (List WSResponse) :=
  runPart (fun r => r.state.queue)

/-- Close-state of the outbound queue after the run. -/
def runQueueClosed : Except String HQRun → Option Bool :=
  runPart (fun r => r.state.queueClosed)

/-- The Gemini request made during the run, if any. -/
def runGemini : Except String HQRun → Option (Option GeminiCall) :=
  runPart (fun r => r.geminiCall)

/-- The `chat_messages` rows the run inserted. -/
def runInserts : Except String HQRun → Option (List ChatRow) :=
  runPart (fun r => r.inserts)

/-- Membership requests the run routed through the hub channels. -/
def runHubRequests : Except String HQRun → Option (List HubReq) :=
  runPart (fun r => r.hubRequests)

/-- Inline `delete(hub.clients, c)` calls the run performed. -/
def runInlineDeletes : Except String HQRun → Option (List ClientId) :=
  runPart (fun r => r.inlineDeletes)

/-- Whether a persistence failure was swallowed and logged during the run. -/
def runPersistLogged : Except String HQRun → Option Bool :=
  runPart (fun r => r.persistFailureLogged)

/-- How the frontend renders a stored `message_type`
(frontend/src/app/chat/page.js line 168): `"bot"` is shown as the
`assistant` role, everything else verbatim. -/
def roleOf (t : String) : String := if t = "bot" then "assistant" else t

/-- A filler frame used to saturate a queue in concrete runs. -/
def padFrame : WSResponse := ⟨.response, [], "pad", 0⟩

/-- A gateway state whose outbound queue is full to capacity. -/
def fullState : GatewayState :=
  ⟨{7}, List.replicate sendCapacity padFrame, false⟩

/-- A gateway state with an empty, open outbound queue. -/
def freshState : GatewayState := ⟨{1}, [], false⟩

/-- Chunk rows of a small concrete document. -/
def demoChunks : List Str := ["doc text".toList]

/-- A concrete environment whose Gemini call succeeds. -/
def okEnv : HQEnv :=
  ⟨.ok demoChunks, .ok "the answer".toList, true, "r1", "e1", 0⟩

/-- A concrete environment whose Gemini call fails. -/
def badGeminiEnv : HQEnv :=
  ⟨.ok demoChunks, .error "quota".toList, true, "r2", "e2", 0⟩

/-- A concrete environment whose document has no chunk rows. -/
def noChunksEnv : HQEnv :=
  ⟨.ok [], .ok "unused".toList, true, "r3", "e3", 0⟩

/-- A concrete environment whose `chat_messages` insert fails. -/
def failPersistEnv : HQEnv :=
  ⟨.ok demoChunks, .ok "the answer".toList, false, "r4", "e4", 7⟩

/-! ## Chunking — `splitTextIntoChunks`, main.go lines 234–270 -/

/-- Whitespace test used by `strings.Fields` and `strings.TrimSpace`
(`unicode.IsSpace`, restricted to the ASCII space characters). -/
def isSpace (c : Char) : Bool :=
  c == ' ' || c == '\t' || c == '\n' || c == '\r' || c == '\x0b' || c == '\x0c'

/-- Accumulator pass of `strings.Fields`: split around runs of whitespace,
dropping empty fields.  `acc` holds the current word reversed. -/
def fieldsAux (acc : Str) : Str → List Str
  | [] => if acc = [] then [] else [acc.reverse]
  | c :: cs =>
      if isSpace c then
        if acc = [] then fieldsAux [] cs else acc.reverse :: fieldsAux [] cs
      else fieldsAux (c :: acc) cs

/-- `strings.Fields`: the whitespace-separated words of `s`. -/
def fields (s : Str) : List Str := fieldsAux [] s

/-- `strings.TrimSpace`: drop leading and trailing whitespace. -/
def trimSpace (s : Str) : Str :=
  ((s.dropWhile isSpace).reverse.dropWhile isSpace).reverse

/-- The accumulation loop of `splitTextIntoChunks` (main.go lines 249–267):
greedily pack words, flushing the current chunk when the running size would
exceed the budget; within a chunk words are joined by single spaces. -/
def splitLoop (maxChunkSize : Nat) : List Str → Str → Nat → List Str
  | [], cur, _ => if cur.length > 0 then [trimSpace cur] else []
  | w :: ws, cur, size =>
      let wordSize := w.length + 1
      if size + wordSize > maxChunkSize ∧ cur.length > 0 then
        trimSpace cur :: splitLoop maxChunkSize ws w wordSize
      else
        splitLoop maxChunkSize ws
          (if cur.length > 0 then cur ++ ' ' :: w else w) (size + wordSize)

/-- `splitTextIntoChunks` (main.go lines 234–270): a non-positive budget
falls back to 1000; a wordless input yields no chunks. -/
def splitTextIntoChunks (text : Str) (maxChunkSize : Int) : List Str :=
  let m : Nat := if maxChunkSize ≤ 0 then 1000 else maxChunkSize.toNat
  let words := fields text
  if words = [] then [] else splitLoop m words [] 0

/-- Words prefixed by single separating spaces, the tail of a join. -/
def sepJoin (ws : List Str) : Str := (ws.map (fun w => ' ' :: w)).flatten

/-- Texts joined with a single space between consecutive elements. -/
def joinSp : List Str → Str
  | [] => []
  | w :: ws => w ++ sepJoin ws

/-- A word as produced by `fields`: nonempty and whitespace-free. -/
def GoodWord (w : Str) : Prop := w ≠ [] ∧ ∀ c ∈ w, isSpace c = false

/-- A string with a non-whitespace first and last character. -/
def NiceEnds (s : Str) : Prop :=
  s ≠ [] ∧ (∀ a ∈ s.head?, isSpace a = false) ∧
    (∀ a ∈ s.getLast?, isSpace a = false)

/-! ## User creation — `createOrGetUser`, main.go lines 163–189

The `users` table is a row list; `find?` models the `SELECT ... WHERE id = ?`
lookup and the append models the `INSERT`.  On the insert path the function
returns the hard-coded user rather than the row it just inserted. -/

/-- One row of the `users` table. -/
structure UserRow where
  id : String
  email : String
  createdAt : Nat
deriving DecidableEq

/-- `createOrGetUser`: look the user up; if absent, insert the supplied
values but return the literal `User` built at main.go lines 180–182. -/
def createOrGetUser (users : List UserRow) (userID email : String)
    (now : Nat) : List UserRow × UserRow :=
  match users.find? (fun u => u.id == userID) with
  | some u => (users, u)
  | none =>
      (users ++ [⟨userID, email, now⟩],
       ⟨"u1", "himanshu.khojpur@gmail.com", now⟩)

/-! ## Theorems -/

/-- A request found by `lastReq c` is an element of the list and concerns
client `c`. -/
theorem lastReq_spec :
    ∀ {l : List HubReq} {c : ClientId} {r : HubReq},
      lastReq c l = some r → r ∈ l ∧ r.target = c := by
  intro l
  induction l with
  | nil => intro c r h; simp [lastReq] at h
  | cons x t ih =>
      intro c r h
      cases hlt : lastReq c t with
      | some r2 =>
          simp [lastReq, hlt] at h
          subst h
          obtain ⟨hm, ht⟩ := ih hlt
          exact ⟨List.mem_cons_of_mem _ hm, ht⟩
      | none =>
          by_cases hx : x.target = c
          · simp [lastReq, hlt, hx] at h
            subst h
            exact ⟨List.mem_cons_self _ _, hx⟩
          · simp [lastReq, hlt, hx] at h

/-- A listed request's client is in `mentioned`. -/
theorem mem_mentioned_of_mem {r : HubReq} {reqs : List HubReq}
    (h : r ∈ reqs) : r.target ∈ mentioned reqs := by
  induction reqs with
  | nil => cases h
  | cons x t ih =>
      rcases List.mem_cons.mp h with h | h
      · subst h
        exact Finset.mem_insert_self _ _
      · exact Finset.mem_insert_of_mem (ih h)

/-- Membership in the specification set is exactly "last request concerning
`c` is a registration". -/
theorem mem_specClients {reqs : List HubReq} {c : ClientId} :
    c ∈ specClients reqs ↔ lastReq c reqs = some (.register c) := by
  unfold specClients
  rw [Finset.mem_filter]
  constructor
  · rintro ⟨_, h⟩
    exact h
  · intro h
    refine ⟨?_, h⟩
    obtain ⟨hm, ht⟩ := lastReq_spec h
    simpa [ht] using mem_mentioned_of_mem hm

/-- The naive set fold computes "registered and not subsequently
unregistered" relative to a start set. -/
theorem mem_applyAll :
    ∀ (reqs : List HubReq) (s : Finset ClientId) (c : ClientId),
      c ∈ applyAll reqs s ↔
        (lastReq c reqs = some (.register c) ∨
          (lastReq c reqs = none ∧ c ∈ s)) := by
  intro reqs
  induction reqs with
  | nil => intro s c; simp [applyAll, lastReq]
  | cons r rest ih =>
      intro s c
      have hstep : applyAll (r :: rest) s = applyAll rest (applyReq s r) :=
        rfl
      rw [hstep, ih]
      cases r with
      | register a =>
          by_cases hac : a = c
          · subst hac
            cases hlr : lastReq a rest with
            | some r2 => simp [lastReq, hlr]
            | none =>
                simp [lastReq, hlr, HubReq.target, applyReq,
                  Finset.mem_insert]
          · have hca : ¬ c = a := fun h => hac h.symm
            cases hlr : lastReq c rest with
            | some r2 => simp [lastReq, hlr, HubReq.target, hac]
            | none =>
                simp [lastReq, hlr, HubReq.target, hac, applyReq,
                  Finset.mem_insert, hca]
      | unregister a =>
          by_cases hac : a = c
          · subst hac
            cases hlr : lastReq a rest with
            | some r2 => simp [lastReq, hlr]
            | none =>
                simp [lastReq, hlr, HubReq.target, applyReq,
                  Finset.mem_erase]
          · have hca : ¬ c = a := fun h => hac h.symm
            cases hlr : lastReq c rest with
            | some r2 => simp [lastReq, hlr, HubReq.target, hac]
            | none =>
                simp [lastReq, hlr, HubReq.target, hac, applyReq,
                  Finset.mem_erase, hca]

/-- Under `noReregister`, `Hub.run` never panics and its membership map
tracks the naive set fold. -/
theorem hubRun_ok :
    ∀ (reqs : List HubReq) (st : HubState),
      noReregister reqs = true →
      (∀ c, c ∈ st.clients → c ∉ st.closed) →
      (∀ c, c ∈ st.closed → (HubReq.register c) ∉ reqs) →
      ∃ st', hubRun reqs st = .ok st'
        ∧ st'.clients = applyAll reqs st.clients := by
  intro reqs
  induction reqs with
  | nil => intro st _ _ _; exact ⟨st, rfl, rfl⟩
  | cons r rest ih =>
      intro st hnr hdisj hcl
      cases r with
      | register a =>
          have hnr' : noReregister rest = true := by
            simpa [noReregister] using hnr
          have ha : a ∉ st.closed := fun hac =>
            (hcl a hac) (List.mem_cons_self _ _)
          obtain ⟨st', hrun, hcli⟩ :=
            ih ⟨insert a st.clients, st.closed⟩ hnr'
              (fun c hc => by
                rcases Finset.mem_insert.mp hc with h | h
                · subst h; exact ha
                · exact hdisj c h)
              (fun c hc hmem => hcl c hc (List.mem_cons_of_mem _ hmem))
          exact ⟨st', by simpa [hubRun, hubStep] using hrun,
            by simpa [applyAll, applyReq] using hcli⟩
      | unregister a =>
          have hnr' : noReregister rest = true := by
            simp [noReregister, Bool.and_eq_true] at hnr
            exact hnr.2
          have hnra : (HubReq.register a) ∉ rest := by
            simp [noReregister, Bool.and_eq_true] at hnr
            exact hnr.1
          by_cases hmem : a ∈ st.clients
          · have hncl : a ∉ st.closed := hdisj a hmem
            obtain ⟨st', hrun, hcli⟩ :=
              ih ⟨st.clients.erase a, insert a st.closed⟩ hnr'
                (fun c hc => by
                  obtain ⟨hne, hcc⟩ := Finset.mem_erase.mp hc
                  intro hins
                  rcases Finset.mem_insert.mp hins with h | h
                  · exact hne h
                  · exact hdisj c hcc h)
                (fun c hc => by
                  rcases Finset.mem_insert.mp hc with h | h
                  · subst h; exact hnra
                  · exact fun hmem2 => hcl c h (List.mem_cons_of_mem _ hmem2))
            exact ⟨st', by simpa [hubRun, hubStep, hmem, hncl] using hrun,
              by simpa [applyAll, applyReq] using hcli⟩
          · obtain ⟨st', hrun, hcli⟩ :=
              ih st hnr' hdisj
                (fun c hc hmem2 => hcl c hc (List.mem_cons_of_mem _ hmem2))
            refine ⟨st', by simpa [hubRun, hubStep, hmem] using hrun, ?_⟩
            rw [hcli]
            have : st.clients.erase a = st.clients :=
              Finset.erase_eq_of_not_mem hmem
            simp [applyAll, applyReq, this]

/-- Counterexample to claim C1 as stated: on the sequence that unregisters
client 0, re-registers it and unregisters it again, `Hub.run` panics closing
the already-closed channel, so the trailing `register 1` is never consumed
and no final membership set exists — while the claim prescribes `{1}`. -/
theorem hubRun_counterexample :
    finalClients demoBadSeq = none ∧ specClients demoBadSeq = {1} := by
  refine ⟨by decide, by decide⟩

/-- Claim C1 as amended: for every request sequence that never re-registers
a previously unregistered client (true of the program, which registers each
client exactly once), the final membership set equals exactly the clients
registered and not subsequently unregistered; moreover unregistering an
absent client is a no-op without error or panic, and unregistering a present
client whose channel is still open removes it and closes its send queue. -/
theorem hubRun_membership (reqs : List HubReq)
    (h : noReregister reqs = true) :
    finalClients reqs = some (specClients reqs)
    ∧ (∀ st c, c ∉ st.clients → hubStep st (.unregister c) = .ok st)
    ∧ (∀ st c, c ∈ st.clients → c ∉ st.closed →
        hubStep st (.unregister c)
          = .ok ⟨st.clients.erase c, insert c st.closed⟩) := by
  refine ⟨?_, ?_, ?_⟩
  · obtain ⟨st', hrun, hcli⟩ :=
      hubRun_ok reqs initHub h (by simp [initHub]) (by simp [initHub])
    simp only [finalClients, hrun]
    congr 1
    apply Finset.ext
    intro c
    rw [hcli, mem_applyAll]
    simp [initHub, mem_specClients]
  · intro st c hc
    simp [hubStep, hc]
  · intro st c hc hncl
    simp [hubStep, hc, hncl]

/-- Witness for the amended C1 on a sequence with duplicate and absent
unregistrations, plus concrete unregister steps. -/
theorem hubRun_membership_witness :
    noReregister demoOkSeq = true
    ∧ finalClients demoOkSeq = some (specClients demoOkSeq)
    ∧ hubStep demoHubState (.unregister 5) = .ok demoHubState
    ∧ hubStep demoHubState (.unregister 1)
      = .ok ⟨demoHubState.clients.erase 1, insert 1 demoHubState.closed⟩ :=
  ⟨by decide, (hubRun_membership demoOkSeq (by decide)).1,
   (hubRun_membership demoOkSeq (by decide)).2.1 demoHubState 5 (by decide),
   (hubRun_membership demoOkSeq (by decide)).2.2 demoHubState 1 (by decide)
     (by decide)⟩

/-- Claim C2 (code bug): the query pipeline mutates the membership set
without going through the Hub's control loop.  On a successful query whose
originating session's queue is full, `handleQuery` performs an inline
`delete(hub.clients, c)` (main.go line 527) and sends nothing on the hub's
`register`/`unregister` channels. -/
theorem handleQuery_inline_membership_delete :
    runInlineDeletes (handleQuery okEnv 7 "d1" "u1" "q".toList fullState)
      = some [7]
    ∧ runHubRequests (handleQuery okEnv 7 "d1" "u1" "q".toList fullState)
      = some []
    ∧ runClients (handleQuery okEnv 7 "d1" "u1" "q".toList fullState)
      = some (fullState.clients.erase 7) := by
  refine ⟨by decide, by decide, by decide⟩

/-- Claim C3: when the outbound queue is full, every `handleQuery` path drops
the session instead of blocking — the queue is closed, the client is removed
from the membership set, and nothing further is buffered. -/
theorem handleQuery_backpressure_drop (env : HQEnv) (selfId : ClientId)
    (documentID userID : String) (question : Str) (st : GatewayState)
    (hopen : st.queueClosed = false)
    (hfull : sendCapacity ≤ st.queue.length) :
    runQueueClosed (handleQuery env selfId documentID userID question st)
      = some true
    ∧ runClients (handleQuery env selfId documentID userID question st)
      = some (st.clients.erase selfId)
    ∧ runQueue (handleQuery env selfId documentID userID question st)
      = some st.queue := by
  have hlt : ¬ st.queue.length < sendCapacity := Nat.not_lt.mpr hfull
  unfold handleQuery sendErrorRun trySend
  cases env.chunksResult with
  | error e =>
      simp [hopen, hlt, runQueueClosed, runClients, runQueue, runPart]
  | ok chunks =>
      by_cases hc : docContext chunks = []
      · simp [hc, hopen, hlt, runQueueClosed, runClients, runQueue, runPart]
      · cases env.geminiResult with
        | error e =>
            simp [hc, hopen, hlt, runQueueClosed, runClients, runQueue,
              runPart]
        | ok answer =>
            simp [hc, hopen, hlt, runQueueClosed, runClients, runQueue,
              runPart]

/-- Witness for C3 at a concrete full-queue state. -/
theorem handleQuery_backpressure_drop_witness :
    (fullState.queueClosed = false
      ∧ sendCapacity ≤ fullState.queue.length)
    ∧ runQueueClosed
        (handleQuery badGeminiEnv 7 "d1" "u1" "q".toList fullState)
      = some true
    ∧ runClients (handleQuery badGeminiEnv 7 "d1" "u1" "q".toList fullState)
      = some (fullState.clients.erase 7)
    ∧ runQueue (handleQuery badGeminiEnv 7 "d1" "u1" "q".toList fullState)
      = some fullState.queue :=
  ⟨⟨rfl, by decide⟩,
   handleQuery_backpressure_drop badGeminiEnv 7 "d1" "u1" "q".toList
     fullState rfl (by decide)⟩

/-- Claim C4: a query over a document with zero chunk rows yields exactly one
`error`-typed frame ("No content found for this document") enqueued to the
session, no Gemini call, and no membership change. -/
theorem handleQuery_no_segments (env : HQEnv) (selfId : ClientId)
    (documentID userID : String) (question : Str) (st : GatewayState)
    (hchunks : env.chunksResult = .ok [])
    (hopen : st.queueClosed = false)
    (hroom : st.queue.length < sendCapacity) :
    runQueue (handleQuery env selfId documentID userID question st)
      = some (st.queue ++
          [⟨.error, "No content found for this document".toList,
            env.errorID, env.now⟩])
    ∧ runGemini (handleQuery env selfId documentID userID question st)
      = some none
    ∧ runClients (handleQuery env selfId documentID userID question st)
      = some st.clients
    ∧ runQueueClosed (handleQuery env selfId documentID userID question st)
      = some false := by
  unfold handleQuery sendErrorRun trySend
  rw [hchunks]
  simp [docContext, hopen, hroom, runQueue, runGemini, runClients,
    runQueueClosed, runPart]

/-- Witness for C4: no chunk rows, fresh session. -/
theorem handleQuery_no_segments_witness :
    (noChunksEnv.chunksResult = .ok []
      ∧ freshState.queueClosed = false
      ∧ freshState.queue.length < sendCapacity)
    ∧ runQueue (handleQuery noChunksEnv 1 "d1" "u1" "q".toList freshState)
      = some (freshState.queue ++
          [⟨.error, "No content found for this document".toList,
            noChunksEnv.errorID, noChunksEnv.now⟩])
    ∧ runGemini (handleQuery noChunksEnv 1 "d1" "u1" "q".toList freshState)
      = some none
    ∧ runClients (handleQuery noChunksEnv 1 "d1" "u1" "q".toList freshState)
      = some freshState.clients
    ∧ runQueueClosed
        (handleQuery noChunksEnv 1 "d1" "u1" "q".toList freshState)
      = some false :=
  ⟨⟨rfl, rfl, by decide⟩,
   handleQuery_no_segments noChunksEnv 1 "d1" "u1" "q".toList freshState
     rfl rfl (by decide)⟩

/-- Claim C5: the prompt passed to the Gemini call embeds exactly
`limitContent` of the concatenated chunks, and `limitContent` is a hard
cutoff at 24000 characters: it equals `take 24000`, its length is
`min length 24000`, and content within the cap is passed unchanged. -/
theorem handleQuery_truncates_context (env : HQEnv) (selfId : ClientId)
    (documentID userID : String) (question : Str) (st : GatewayState)
    (chunks : List Str)
    (hchunks : env.chunksResult = .ok chunks)
    (hne : docContext chunks ≠ [])
    (hopen : st.queueClosed = false) :
    runGemini (handleQuery env selfId documentID userID question st)
      = some (some (callGeminiRequest
          (promptFor (limitContent (docContext chunks)) question)))
    ∧ limitContent (docContext chunks) = (docContext chunks).take contentLimit
    ∧ (limitContent (docContext chunks)).length
      = min (docContext chunks).length contentLimit
    ∧ ((docContext chunks).length ≤ contentLimit →
        limitContent (docContext chunks) = docContext chunks) := by
  have hB : ∀ s : Str, limitContent s = s.take contentLimit := by
    intro s
    by_cases h : s.length > contentLimit
    · simp [limitContent, h]
    · have hle : s.length ≤ contentLimit := Nat.not_lt.mp h
      simp [limitContent, h, List.take_of_length_le hle]
  refine ⟨?_, hB _, ?_, ?_⟩
  · unfold handleQuery sendErrorRun trySend
    rw [hchunks]
    by_cases hq : st.queue.length < sendCapacity <;>
      cases hg : env.geminiResult <;>
        simp [hne, hopen, hq, runGemini, runPart]
  · rw [hB]
    simp [List.length_take, Nat.min_comm]
  · intro hle
    simp [limitContent, Nat.not_lt.mpr hle]

/-- Witness for C5 at a concrete in-cap document. -/
theorem handleQuery_truncates_context_witness :
    (okEnv.chunksResult = .ok demoChunks
      ∧ docContext demoChunks ≠ []
      ∧ freshState.queueClosed = false)
    ∧ runGemini (handleQuery okEnv 1 "d1" "u1" "q".toList freshState)
      = some (some (callGeminiRequest
          (promptFor (limitContent (docContext demoChunks)) "q".toList)))
    ∧ limitContent (docContext demoChunks)
      = (docContext demoChunks).take contentLimit
    ∧ (limitContent (docContext demoChunks)).length
      = min (docContext demoChunks).length contentLimit
    ∧ limitContent (docContext demoChunks) = docContext demoChunks :=
  ⟨⟨rfl, by decide, rfl⟩,
   (handleQuery_truncates_context okEnv 1 "d1" "u1" "q".toList freshState
       demoChunks rfl (by decide) rfl).1,
   (handleQuery_truncates_context okEnv 1 "d1" "u1" "q".toList freshState
       demoChunks rfl (by decide) rfl).2.1,
   (handleQuery_truncates_context okEnv 1 "d1" "u1" "q".toList freshState
       demoChunks rfl (by decide) rfl).2.2.1,
   (handleQuery_truncates_context okEnv 1 "d1" "u1" "q".toList freshState
       demoChunks rfl (by decide) rfl).2.2.2 (by decide)⟩

/-- Counterexample to claim C6 as stated: on a successful query the pipeline
inserts exactly one `chat_messages` row — the generated answer, stored with
`message_type` "bot" — and no row for the user's question (the question row
is written by the separate `/chat` endpoint invoked by the client). -/
theorem handleQuery_no_user_row :
    runInserts (handleQuery okEnv 1 "d1" "u1" "q".toList freshState)
      = some [⟨"r1", "d1", "u1", "bot", "the answer".toList, 0⟩]
    ∧ List.filter (fun r => r.messageType == "user")
        [(⟨"r1", "d1", "u1", "bot", "the answer".toList, 0⟩ : ChatRow)]
      = [] := by
  refine ⟨by decide, by decide⟩

/-- Claim C6 as amended: on Gemini success the pipeline inserts exactly one
Exchange row, for the generated answer, whose stored `message_type` "bot" is
rendered as the assistant role; the insert outcome only toggles the logged
flag and never prevents the response frame from being enqueued. -/
theorem handleQuery_persists_answer (env : HQEnv) (selfId : ClientId)
    (documentID userID : String) (question : Str) (st : GatewayState)
    (chunks : List Str) (answer : Str)
    (hchunks : env.chunksResult = .ok chunks)
    (hne : docContext chunks ≠ [])
    (hgem : env.geminiResult = .ok answer)
    (hopen : st.queueClosed = false)
    (hroom : st.queue.length < sendCapacity) :
    runInserts (handleQuery env selfId documentID userID question st)
      = some [⟨env.responseID, documentID, userID, "bot", answer, env.now⟩]
    ∧ roleOf "bot" = "assistant"
    ∧ runQueue (handleQuery env selfId documentID userID question st)
      = some (st.queue ++ [⟨.response, answer, env.responseID, env.now⟩])
    ∧ runPersistLogged (handleQuery env selfId documentID userID question st)
      = some (!env.persistOk) := by
  unfold handleQuery sendErrorRun trySend
  rw [hchunks, hgem]
  simp [hne, hopen, hroom, runInserts, runQueue, runPersistLogged, runPart,
    roleOf]

/-- Witness for the amended C6, with a failing persistence layer. -/
theorem handleQuery_persists_answer_witness :
    (failPersistEnv.chunksResult = .ok demoChunks
      ∧ docContext demoChunks ≠ []
      ∧ failPersistEnv.geminiResult = .ok "the answer".toList
      ∧ freshState.queueClosed = false
      ∧ freshState.queue.length < sendCapacity)
    ∧ runInserts (handleQuery failPersistEnv 1 "d1" "u1" "q".toList freshState)
      = some [⟨failPersistEnv.responseID, "d1", "u1", "bot",
          "the answer".toList, failPersistEnv.now⟩]
    ∧ roleOf "bot" = "assistant"
    ∧ runQueue (handleQuery failPersistEnv 1 "d1" "u1" "q".toList freshState)
      = some (freshState.queue ++
          [⟨.response, "the answer".toList, failPersistEnv.responseID,
            failPersistEnv.now⟩])
    ∧ runPersistLogged
        (handleQuery failPersistEnv 1 "d1" "u1" "q".toList freshState)
      = some (!failPersistEnv.persistOk) :=
  ⟨⟨rfl, by decide, rfl, rfl, by decide⟩,
   handleQuery_persists_answer failPersistEnv 1 "d1" "u1" "q".toList
     freshState demoChunks "the answer".toList rfl (by decide) rfl rfl
     (by decide)⟩

/-- Claim C7: a Gemini failure is surfaced to the session as an `error`-typed
frame carrying the failure reason, while the session stays registered and
its queue stays open — the session is not terminated by a pipeline error. -/
theorem handleQuery_gemini_failure (env : HQEnv) (selfId : ClientId)
    (documentID userID : String) (question : Str) (st : GatewayState)
    (chunks e : List Char)
    (hchunks : env.chunksResult = .ok [chunks])
    (hne : docContext [chunks] ≠ [])
    (hgem : env.geminiResult = .error e)
    (hopen : st.queueClosed = false)
    (hroom : st.queue.length < sendCapacity) :
    runQueue (handleQuery env selfId documentID userID question st)
      = some (st.queue ++
          [⟨.error, "Failed to get response from AI: ".toList ++ e,
            env.errorID, env.now⟩])
    ∧ runClients (handleQuery env selfId documentID userID question st)
      = some st.clients
    ∧ runQueueClosed (handleQuery env selfId documentID userID question st)
      = some false
    ∧ runHubRequests (handleQuery env selfId documentID userID question st)
      = some [] := by
  unfold handleQuery sendErrorRun trySend
  rw [hchunks, hgem]
  simp [hne, hopen, hroom, runQueue, runClients, runQueueClosed,
    runHubRequests, runPart]

/-- Witness for C7 with a concrete failing Gemini call. -/
theorem handleQuery_gemini_failure_witness :
    (badGeminiEnv.chunksResult = .ok ["doc text".toList]
      ∧ docContext ["doc text".toList] ≠ []
      ∧ badGeminiEnv.geminiResult = .error "quota".toList
      ∧ freshState.queueClosed = false
      ∧ freshState.queue.length < sendCapacity)
    ∧ runQueue (handleQuery badGeminiEnv 1 "d1" "u1" "q".toList freshState)
      = some (freshState.queue ++
          [⟨.error, "Failed to get response from AI: ".toList ++
              "quota".toList, badGeminiEnv.errorID, badGeminiEnv.now⟩])
    ∧ runClients (handleQuery badGeminiEnv 1 "d1" "u1" "q".toList freshState)
      = some freshState.clients
    ∧ runQueueClosed
        (handleQuery badGeminiEnv 1 "d1" "u1" "q".toList freshState)
      = some false
    ∧ runHubRequests
        (handleQuery badGeminiEnv 1 "d1" "u1" "q".toList freshState)
      = some [] :=
  ⟨⟨rfl, by decide, rfl, rfl, by decide⟩,
   handleQuery_gemini_failure badGeminiEnv 1 "d1" "u1" "q".toList freshState
     "doc text".toList "quota".toList rfl (by decide) rfl rfl (by decide)⟩

/-- Counterexample to claim C8 as stated: the Gemini request actually issued
by a pipeline run carries no client timeout (`http.Post` uses the default
HTTP client, whose `Timeout` is the zero value). -/
theorem geminiCall_unbounded_counterexample :
    runGemini (handleQuery okEnv 2 "d1" "u1" "q".toList freshState)
      = some (some (callGeminiRequest
          (promptFor (limitContent (docContext demoChunks)) "q".toList)))
    ∧ (callGeminiRequest
        (promptFor (limitContent (docContext demoChunks))
          "q".toList)).clientTimeout = none := by
  refine ⟨by decide, rfl⟩

/-- Claim C8 as amended: no pipeline Gemini invocation carries a timeout
bound, and when the call fails (a timeout surfaced by the transport
included) the pipeline produces the same error frame as any other Gemini
failure. -/
theorem handleQuery_call_no_timeout (env : HQEnv) (selfId : ClientId)
    (documentID userID : String) (question : Str) (st : GatewayState)
    (chunks e : List Char)
    (hchunks : env.chunksResult = .ok [chunks])
    (hne : docContext [chunks] ≠ [])
    (hgem : env.geminiResult = .error e)
    (hopen : st.queueClosed = false)
    (hroom : st.queue.length < sendCapacity) :
    runGemini (handleQuery env selfId documentID userID question st)
      = some (some (callGeminiRequest
          (promptFor (limitContent (docContext [chunks])) question)))
    ∧ (callGeminiRequest
        (promptFor (limitContent (docContext [chunks]))
          question)).clientTimeout = none
    ∧ runQueue (handleQuery env selfId documentID userID question st)
      = some (st.queue ++
          [⟨.error, "Failed to get response from AI: ".toList ++ e,
            env.errorID, env.now⟩]) := by
  unfold handleQuery sendErrorRun trySend
  rw [hchunks, hgem]
  refine ⟨?_, rfl, ?_⟩ <;>
    simp [hne, hopen, hroom, runGemini, runQueue, runPart]

/-- Witness for the amended C8. -/
theorem handleQuery_call_no_timeout_witness :
    (badGeminiEnv.chunksResult = .ok ["doc text".toList]
      ∧ docContext ["doc text".toList] ≠ []
      ∧ badGeminiEnv.geminiResult = .error "quota".toList
      ∧ freshState.queueClosed = false
      ∧ freshState.queue.length < sendCapacity)
    ∧ runGemini (handleQuery badGeminiEnv 2 "d2" "u2" "why".toList freshState)
      = some (some (callGeminiRequest
          (promptFor (limitContent (docContext ["doc text".toList]))
            "why".toList)))
    ∧ (callGeminiRequest
        (promptFor (limitContent (docContext ["doc text".toList]))
          "why".toList)).clientTimeout = none
    ∧ runQueue (handleQuery badGeminiEnv 2 "d2" "u2" "why".toList freshState)
      = some (freshState.queue ++
          [⟨.error, "Failed to get response from AI: ".toList ++
              "quota".toList, badGeminiEnv.errorID, badGeminiEnv.now⟩]) :=
  ⟨⟨rfl, by decide, rfl, rfl, by decide⟩,
   handleQuery_call_no_timeout badGeminiEnv 2 "d2" "u2" "why".toList
     freshState "doc text".toList "quota".toList rfl (by decide) rfl rfl
     (by decide)⟩

/-- A character under a list's `head?` is a member. -/
theorem mem_of_head?_eq {l : Str} {a : Char} (h : l.head? = some a) :
    a ∈ l := by
  cases l with
  | nil => simp at h
  | cons b t =>
      simp at h
      rw [← h]
      exact List.mem_cons_self _ _

/-- A character under a list's `getLast?` is a member. -/
theorem mem_of_getLast?_eq {l : Str} {a : Char} (h : l.getLast? = some a) :
    a ∈ l := by
  rw [← List.head?_reverse] at h
  exact List.mem_reverse.mp (mem_of_head?_eq h)

/-- `getLast?` of an append with a nonempty right part. -/
theorem getLast?_append_right {l₁ l₂ : Str} (h : l₂ ≠ []) :
    (l₁ ++ l₂).getLast? = l₂.getLast? := by
  induction l₁ with
  | nil => rfl
  | cons a t ih =>
      cases h' : t ++ l₂ with
      | nil =>
          rcases List.append_eq_nil.mp h' with ⟨_, h2⟩
          exact absurd h2 h
      | cons x xs =>
          show (a :: (t ++ l₂)).getLast? = l₂.getLast?
          rw [h', List.getLast?_cons_cons, ← h', ih]

/-- Every word produced by `fieldsAux` is nonempty and whitespace-free. -/
theorem fieldsAux_good :
    ∀ (s : Str) (acc : Str), (∀ c ∈ acc, isSpace c = false) →
      ∀ w ∈ fieldsAux acc s, GoodWord w := by
  intro s
  induction s with
  | nil =>
      intro acc hacc w hw
      by_cases h : acc = []
      · simp [fieldsAux, h] at hw
      · simp [fieldsAux, h] at hw
        subst hw
        exact ⟨by simpa using h,
          fun c hc => hacc c (List.mem_reverse.mp hc)⟩
  | cons c cs ih =>
      intro acc hacc w hw
      cases hsp : isSpace c with
      | true =>
          by_cases h : acc = []
          · simp [fieldsAux, hsp, h] at hw
            exact ih [] (by simp) w hw
          · simp [fieldsAux, hsp, h] at hw
            rcases hw with hw | hw
            · subst hw
              exact ⟨by simpa using h,
                fun d hd => hacc d (List.mem_reverse.mp hd)⟩
            · exact ih [] (by simp) w hw
      | false =>
          simp [fieldsAux, hsp] at hw
          refine ih (c :: acc) ?_ w hw
          intro d hd
          rcases List.mem_cons.mp hd with h | h
          · rw [h]; exact hsp
          · exact hacc d h

/-- `trimSpace` leaves a string with non-whitespace ends unchanged. -/
theorem trimSpace_nice {s : Str} (h : NiceEnds s) : trimSpace s = s := by
  obtain ⟨hne, hh, hl⟩ := h
  cases s with
  | nil => exact absurd rfl hne
  | cons a t =>
      have ha : isSpace a = false := hh a (by simp)
      have h1 : (a :: t).dropWhile isSpace = a :: t := by
        simp [List.dropWhile_cons, ha]
      rw [trimSpace, h1]
      have hrev : (a :: t).reverse ≠ [] := by simp
      obtain ⟨b, u, hbu⟩ := List.exists_cons_of_ne_nil hrev
      have hlast : (a :: t).getLast? = some b := by
        rw [← List.head?_reverse, hbu]
        rfl
      have hb : isSpace b = false := hl b (by simp [hlast])
      rw [hbu]
      calc ((b :: u).dropWhile isSpace).reverse
          = (b :: u).reverse := by simp [List.dropWhile_cons, hb]
        _ = a :: t := by rw [← hbu, List.reverse_reverse]

/-- A `fields` word has non-whitespace ends. -/
theorem goodWord_nice {w : Str} (h : GoodWord w) : NiceEnds w := by
  obtain ⟨hne, hall⟩ := h
  exact ⟨hne, fun a ha => hall a (mem_of_head?_eq ha),
    fun a ha => hall a (mem_of_getLast?_eq ha)⟩

/-- Appending a separating space and a good word keeps ends
non-whitespace. -/
theorem niceEnds_extend {cur w : Str} (hc : NiceEnds cur)
    (hw : GoodWord w) : NiceEnds (cur ++ ' ' :: w) := by
  obtain ⟨hne, hh, hl⟩ := hc
  obtain ⟨hwne, hwall⟩ := hw
  refine ⟨by simp [hne], ?_, ?_⟩
  · intro a ha
    cases cur with
    | nil => exact absurd rfl hne
    | cons b t =>
        have hab : b = a := by simpa using ha
        rw [← hab]
        exact hh b (by simp)
  · intro a ha
    have h1 : (cur ++ ' ' :: w).getLast? = (' ' :: w).getLast? :=
      getLast?_append_right (by simp)
    have h2 : (' ' :: w).getLast? = w.getLast? := by
      cases w with
      | nil => exact absurd rfl hwne
      | cons x xs => exact List.getLast?_cons_cons
    rw [h1, h2] at ha
    exact hwall a (mem_of_getLast?_eq (by simpa using ha))

/-- `splitLoop` with a nonempty current chunk returns at least one chunk. -/
theorem splitLoop_ne_nil (m : Nat) :
    ∀ (ws : List Str) (cur : Str) (size : Nat), cur ≠ [] →
      splitLoop m ws cur size ≠ [] := by
  intro ws
  induction ws with
  | nil =>
      intro cur size h
      have h0 : cur.length > 0 := List.length_pos.mpr h
      simp [splitLoop, h0]
  | cons w t ih =>
      intro cur size h
      have h0 : cur.length > 0 := List.length_pos.mpr h
      by_cases hf : size + (w.length + 1) > m ∧ cur.length > 0
      · simp [splitLoop, hf]
      · simp only [splitLoop, if_neg hf, if_pos h0]
        exact ih _ _ (by simp [h])

/-- Unfolding `sepJoin` over a cons cell. -/
theorem sepJoin_cons (w : Str) (ws : List Str) :
    sepJoin (w :: ws) = ' ' :: (w ++ sepJoin ws) := by
  simp [sepJoin]

/-- Joining a cons with a nonempty tail inserts a single space. -/
theorem joinSp_cons_of_ne_nil {l : List Str} (c : Str) (h : l ≠ []) :
    joinSp (c :: l) = c ++ ' ' :: joinSp l := by
  cases l with
  | nil => exact absurd rfl h
  | cons x xs => simp [joinSp, sepJoin_cons]

/-- The chunking loop preserves the words: its chunks joined by single
spaces equal the pending current chunk followed by the remaining words. -/
theorem splitLoop_join (m : Nat) :
    ∀ (ws : List Str) (cur : Str) (size : Nat),
      (∀ w ∈ ws, GoodWord w) → (cur = [] ∨ NiceEnds cur) →
      joinSp (splitLoop m ws cur size)
        = if cur = [] then joinSp ws else cur ++ sepJoin ws := by
  intro ws
  induction ws with
  | nil =>
      intro cur size _ hcur
      rcases hcur with h | h
      · rw [h]
        simp [splitLoop, joinSp]
      · have h0 : cur.length > 0 := List.length_pos.mpr h.1
        rw [if_neg h.1]
        simp [splitLoop, h0, trimSpace_nice h, joinSp, sepJoin]
  | cons w t ih =>
      intro cur size hws hcur
      have hw : GoodWord w := hws w (List.mem_cons_self _ _)
      have ht : ∀ x ∈ t, GoodWord x := fun x hx =>
        hws x (List.mem_cons_of_mem _ hx)
      rcases hcur with hc | hc
      · rw [hc]
        have hstep : splitLoop m (w :: t) [] size
            = splitLoop m t w (size + (w.length + 1)) := by
          simp [splitLoop]
        rw [hstep, ih w _ ht (Or.inr (goodWord_nice hw)),
          if_neg hw.1, if_pos rfl]
        rfl
      · have h0 : cur.length > 0 := List.length_pos.mpr hc.1
        by_cases hf : size + (w.length + 1) > m
        · have hstep : splitLoop m (w :: t) cur size
              = trimSpace cur :: splitLoop m t w (w.length + 1) := by
            simp [splitLoop, hf, h0]
          rw [hstep, trimSpace_nice hc,
            joinSp_cons_of_ne_nil _ (splitLoop_ne_nil m t w _ hw.1),
            ih w _ ht (Or.inr (goodWord_nice hw)),
            if_neg hw.1, if_neg hc.1, sepJoin_cons]
        · have hstep : splitLoop m (w :: t) cur size
              = splitLoop m t (cur ++ ' ' :: w) (size + (w.length + 1)) := by
            simp [splitLoop, hf, h0]
          rw [hstep, ih _ _ ht (Or.inr (niceEnds_extend hc hw)),
            if_neg (by simp [hc.1] : ¬(cur ++ ' ' :: w = [])),
            if_neg hc.1, sepJoin_cons]
          simp

/-- Claim C9: for every text and positive budget, `splitTextIntoChunks` is
word-preserving — the chunks joined with single spaces equal the text's
words joined with single spaces — and a wordless text yields no chunks. -/
theorem splitTextIntoChunks_preserves_words (text : Str) (m : Int)
    (hm : 0 < m) :
    joinSp (splitTextIntoChunks text m) = joinSp (fields text)
    ∧ (fields text = [] → splitTextIntoChunks text m = []) := by
  constructor
  · by_cases h : fields text = []
    · simp [splitTextIntoChunks, h]
    · have hgood : ∀ w ∈ fields text, GoodWord w :=
        fun w hw => fieldsAux_good text [] (by simp) w hw
      simp only [splitTextIntoChunks, if_neg h]
      rw [splitLoop_join _ (fields text) [] 0 hgood (Or.inl rfl),
        if_pos rfl]
  · intro h
    simp [splitTextIntoChunks, h]

/-- Witness for C9 on a concrete text with leading, trailing and internal
whitespace, plus a whitespace-only text. -/
theorem splitTextIntoChunks_preserves_words_witness :
    (0 : Int) < 5
    ∧ joinSp (splitTextIntoChunks "  alpha beta gamma  ".toList 5)
      = joinSp (fields "  alpha beta gamma  ".toList)
    ∧ splitTextIntoChunks "  alpha beta gamma  ".toList 5
      = ["alpha".toList, "beta".toList, "gamma".toList]
    ∧ fields "  \t\n ".toList = []
    ∧ splitTextIntoChunks "  \t\n ".toList 5 = [] :=
  ⟨by decide,
   (splitTextIntoChunks_preserves_words "  alpha beta gamma  ".toList 5
       (by decide)).1,
   by decide,
   by decide,
   (splitTextIntoChunks_preserves_words "  \t\n ".toList 5
       (by decide)).2 (by decide)⟩

/-- Claim C10: when the user id is absent, `createOrGetUser` inserts the
supplied id and email but returns the hard-coded `User` ("u1",
"himanshu.khojpur@gmail.com"); when present, it returns the stored row
unchanged. -/
theorem createOrGetUser_spec (users : List UserRow) (userID email : String)
    (now : Nat) :
    (users.find? (fun u => u.id == userID) = none →
        createOrGetUser users userID email now
          = (users ++ [⟨userID, email, now⟩],
             ⟨"u1", "himanshu.khojpur@gmail.com", now⟩))
    ∧ (∀ u, users.find? (fun u => u.id == userID) = some u →
        createOrGetUser users userID email now = (users, u)) := by
  constructor
  · intro h
    simp [createOrGetUser, h]
  · intro u h
    simp [createOrGetUser, h]

/-- Witness for C10: a fresh user gets the hard-coded return value; an
existing user is returned as stored. -/
theorem createOrGetUser_spec_witness :
    ([] : List UserRow).find? (fun u => u.id == "alice") = none
    ∧ createOrGetUser [] "alice" "alice@example.com" 5
      = ([⟨"alice", "alice@example.com", 5⟩],
         ⟨"u1", "himanshu.khojpur@gmail.com", 5⟩)
    ∧ [(⟨"bob", "bob@example.com", 1⟩ : UserRow)].find?
        (fun u => u.id == "bob") = some ⟨"bob", "bob@example.com", 1⟩
    ∧ createOrGetUser [⟨"bob", "bob@example.com", 1⟩] "bob" "new@example.com" 9
      = ([⟨"bob", "bob@example.com", 1⟩], ⟨"bob", "bob@example.com", 1⟩) :=
  ⟨by decide,
   (createOrGetUser_spec [] "alice" "alice@example.com" 5).1 (by decide),
   by decide,
   (createOrGetUser_spec [⟨"bob", "bob@example.com", 1⟩] "bob"
       "new@example.com" 9).2 ⟨"bob", "bob@example.com", 1⟩ (by decide)⟩

end Docsy
